import Mathlib

/-!
Verification of the document-archive server (Rust sources in `src/`):
the wire-protocol codec (`src/message.rs`), the sharded concurrent
multimap (`src/multimap.rs`) and the document database
(`src/database.rs`) are shallowly embedded below, and the spec's
claims about them are settled as theorems.

Modelling conventions:
* A Rust `u8` byte is a `Nat` (the encoders only ever produce values
  `< 256`); a byte stream (`impl Read`) is a `List Nat` consumed from
  the front.
* A Rust `String` on the wire is modelled by its UTF-8 byte sequence
  (`List Nat`); `String::from_utf8` becomes the explicit validity
  check `isValidUtf8` returning the same bytes.
* `usize` is 64-bit (the code reads `u64::from_be_bytes` into a
  `size_of::<usize>()` buffer, which only compiles on a 64-bit host);
  `18446744073709551616 = 2 ^ 64`.
* `Option`-returning Rust decoding (`.ok()?`) is `Option`; a call
  that `.unwrap()`s a fallible read is modelled by the `DecodeResult`
  type whose `panic` constructor records the abort.
-/

/-- `read_exact` on an in-memory stream: succeeds returning the first
`n` bytes and the rest of the stream iff at least `n` bytes remain. -/
def readExact (n : Nat) (s : List Nat) : Option (List Nat × List Nat) :=
  if n ≤ s.length then some (s.take n, s.drop n) else none

/-- The 8 big-endian bytes of `n` (`usize::to_be_bytes`; in Rust `n`
is a `usize`, hence `< 2 ^ 64`). Divisors are `2^56 .. 2^8`. -/
def u64ToBeBytes (n : Nat) : List Nat :=
  [n / 72057594037927936 % 256, n / 281474976710656 % 256,
   n / 1099511627776 % 256, n / 4294967296 % 256,
   n / 16777216 % 256, n / 65536 % 256, n / 256 % 256, n % 256]

/-- `u64::from_be_bytes`: big-endian value of a byte list. -/
def beBytesToNat (l : List Nat) : Nat :=
  l.foldl (fun acc b => acc * 256 + b) 0

/-- A UTF-8 continuation byte (`0x80..=0xBF`). -/
def isUtf8Cont (b : Nat) : Bool := 128 ≤ b && b ≤ 191

/-- The UTF-8 validity check performed by `String::from_utf8`:
well-formed sequences only (no overlong forms, no surrogates, max
`U+10FFFF`). Hex ranges are written in decimal: `0x7F = 127`,
`0xC2 = 194`, `0xDF = 223`, `0xE0 = 224`, `0xED = 237`, `0xEF = 239`,
`0xF0 = 240`, `0xF4 = 244`, `0xA0 = 160`, `0x9F = 159`, `0x90 = 144`,
`0x8F = 143`, `0xBF = 191`. -/
def isValidUtf8 : List Nat → Bool
  | [] => true
  | b :: rest =>
    if b ≤ 127 then isValidUtf8 rest
    else if b < 194 then false
    else if b ≤ 223 then
      match rest with
      | b2 :: rest2 => isUtf8Cont b2 && isValidUtf8 rest2
      | [] => false
    else if b ≤ 239 then
      match rest with
      | b2 :: b3 :: rest3 =>
        (if b = 224 then 160 ≤ b2 && b2 ≤ 191
         else if b = 237 then 128 ≤ b2 && b2 ≤ 159
         else isUtf8Cont b2) && isUtf8Cont b3 && isValidUtf8 rest3
      | _ => false
    else if b ≤ 244 then
      match rest with
      | b2 :: b3 :: b4 :: rest4 =>
        (if b = 240 then 144 ≤ b2 && b2 ≤ 191
         else if b = 244 then 128 ≤ b2 && b2 ≤ 143
         else isUtf8Cont b2) && isUtf8Cont b3 && isUtf8Cont b4 && isValidUtf8 rest4
      | _ => false
    else false

/-- `enum Request` from `src/message.rs`; the two `String` payloads
are carried as their UTF-8 bytes. -/
inductive Request where
  | publish (doc : List Nat)
  | search (word : List Nat)
  | retrieve (id : Nat)
deriving DecidableEq

/-- `Request::to_bytes` (`src/message.rs` lines 14-38): tag byte, then
for Publish/Search an 8-byte big-endian byte length followed by the
UTF-8 bytes, for Retrieve the 8-byte big-endian id. -/
def Request.to_bytes : Request → List Nat
  | .publish doc => 1 :: (u64ToBeBytes doc.length ++ doc)
  | .search word => 2 :: (u64ToBeBytes word.length ++ word)
  | .retrieve id => 3 :: u64ToBeBytes id

/-- `Request::from_bytes` (`src/message.rs` lines 42-74). Every read
uses `.ok()?`, so a short read yields `none`; an unknown tag yields
`none`; `String::from_utf8(..).ok()?` yields `none` on invalid UTF-8. -/
def Request.from_bytes (s : List Nat) : Option Request :=
  match readExact 1 s with
  | none => none
  | some (tagb, s1) =>
    let tag := tagb.headD 0
    if tag = 1 then
      match readExact 8 s1 with
      | none => none
      | some (lenb, s2) =>
        match readExact (beBytesToNat lenb) s2 with
        | none => none
        | some (docb, _) =>
          if isValidUtf8 docb then some (.publish docb) else none
    else if tag = 2 then
      match readExact 8 s1 with
      | none => none
      | some (lenb, s2) =>
        match readExact (beBytesToNat lenb) s2 with
        | none => none
        | some (wordb, _) =>
          if isValidUtf8 wordb then some (.search wordb) else none
    else if tag = 3 then
      match readExact 8 s1 with
      | none => none
      | some (idb, _) => some (.retrieve (beBytesToNat idb))
    else none

/-- `enum Response` from `src/message.rs`. -/
inductive Response where
  | publishSuccess (id : Nat)
  | searchSuccess (ids : List Nat)
  | retrieveSuccess (doc : List Nat)
  | failure
deriving DecidableEq

/-- `Response::to_bytes` (`src/message.rs` lines 93-119). -/
def Response.to_bytes : Response → List Nat
  | .publishSuccess id => 1 :: u64ToBeBytes id
  | .searchSuccess ids =>
      2 :: (u64ToBeBytes ids.length ++ ids.flatMap u64ToBeBytes)
  | .retrieveSuccess doc => 3 :: (u64ToBeBytes doc.length ++ doc)
  | .failure => [4]

/-- Result of running `Response::from_bytes`: a decoded value, `fail`
for a `None` return, or `panic` when an inner `read_exact(..).unwrap()`
aborts. -/
inductive DecodeResult (α : Type) where
  | ok (v : α)
  | fail
  | panic
deriving DecidableEq

/-- An inner read of `Response::from_bytes`: the source calls
`read_exact(..).unwrap()`, so a short read panics instead of
returning `None`. -/
def readExactPanic (n : Nat) (s : List Nat) : DecodeResult (List Nat × List Nat) :=
  if n ≤ s.length then .ok (s.take n, s.drop n) else .panic

/-- The id-reading loop of the SearchSuccess arm of
`Response::from_bytes` (`src/message.rs` lines 140-146): reads `n`
8-byte big-endian ids, each via `read_exact(..).unwrap()`. -/
def readIndices : Nat → List Nat → DecodeResult (List Nat × List Nat)
  | 0, s => .ok ([], s)
  | n + 1, s =>
    match readExactPanic 8 s with
    | .ok (idb, s1) =>
      match readIndices n s1 with
      | .ok (ids, s2) => .ok (beBytesToNat idb :: ids, s2)
      | .fail => .fail
      | .panic => .panic
    | .fail => .fail
    | .panic => .panic

/-- `Response::from_bytes` (`src/message.rs` lines 123-164). The tag
read uses `.ok()?` (so EOF at the very start is `fail`), the unknown
tag arm returns `fail`, but every inner read `.unwrap()`s, so a short
read after a valid tag is a `panic`; invalid UTF-8 in the
RetrieveSuccess arm goes through `.ok()?` and is `fail`. -/
def Response.from_bytes (s : List Nat) : DecodeResult Response :=
  match readExact 1 s with
  | none => .fail
  | some (tagb, s1) =>
    let tag := tagb.headD 0
    if tag = 1 then
      match readExactPanic 8 s1 with
      | .ok (idb, _) => .ok (.publishSuccess (beBytesToNat idb))
      | .fail => .fail
      | .panic => .panic
    else if tag = 2 then
      match readExactPanic 8 s1 with
      | .ok (lenb, s2) =>
        match readIndices (beBytesToNat lenb) s2 with
        | .ok (ids, _) => .ok (.searchSuccess ids)
        | .fail => .fail
        | .panic => .panic
      | .fail => .fail
      | .panic => .panic
    else if tag = 3 then
      match readExactPanic 8 s1 with
      | .ok (lenb, s2) =>
        match readExactPanic (beBytesToNat lenb) s2 with
        | .ok (docb, _) =>
          if isValidUtf8 docb then .ok (.retrieveSuccess docb) else .fail
        | .fail => .fail
        | .panic => .panic
      | .fail => .fail
      | .panic => .panic
    else if tag = 4 then .ok .failure
    else .fail

/-- Constructibility of a `Request` as a Rust value: its strings are
valid UTF-8 (guaranteed by `String`) and all lengths and ids fit in a
`usize` (64 bits). -/
def Request.wf : Request → Bool
  | .publish doc => isValidUtf8 doc && decide (doc.length < 18446744073709551616)
  | .search word => isValidUtf8 word && decide (word.length < 18446744073709551616)
  | .retrieve id => decide (id < 18446744073709551616)

/-- Constructibility of a `Response` as a Rust value. -/
def Response.wf : Response → Bool
  | .publishSuccess id => decide (id < 18446744073709551616)
  | .searchSuccess ids =>
      decide (ids.length < 18446744073709551616) &&
        ids.all (fun i => decide (i < 18446744073709551616))
  | .retrieveSuccess doc =>
      isValidUtf8 doc && decide (doc.length < 18446744073709551616)
  | .failure => true

lemma beBytesToNat_u64ToBeBytes (n : Nat) (h : n < 18446744073709551616) :
    beBytesToNat (u64ToBeBytes n) = n := by
  simp only [beBytesToNat, u64ToBeBytes, List.foldl]
  omega

lemma length_u64ToBeBytes (n : Nat) : (u64ToBeBytes n).length = 8 := rfl

lemma readExact_append (l rest : List Nat) :
    readExact l.length (l ++ rest) = some (l, rest) := by
  have h : l.length ≤ (l ++ rest).length := by
    simp [List.length_append]
  simp [readExact, h, List.take_left, List.drop_left]

lemma readExact_one (b : Nat) (rest : List Nat) :
    readExact 1 (b :: rest) = some ([b], rest) := by
  have h : 1 ≤ (b :: rest).length := by simp
  simp [readExact, h]

lemma readExactPanic_append (l rest : List Nat) :
    readExactPanic l.length (l ++ rest) = .ok (l, rest) := by
  have h : l.length ≤ (l ++ rest).length := by
    simp [List.length_append]
  simp [readExactPanic, h, List.take_left, List.drop_left]

lemma readExact_all (l : List Nat) : readExact l.length l = some (l, []) := by
  have h := readExact_append l []
  simpa using h

lemma readExactPanic_all (l : List Nat) :
    readExactPanic l.length l = .ok (l, []) := by
  have h := readExactPanic_append l []
  simpa using h

lemma readExact_u64 (n : Nat) (rest : List Nat) :
    readExact 8 (u64ToBeBytes n ++ rest) = some (u64ToBeBytes n, rest) := by
  have h := readExact_append (u64ToBeBytes n) rest
  simpa [length_u64ToBeBytes] using h

lemma readExact_u64_nil (n : Nat) :
    readExact 8 (u64ToBeBytes n) = some (u64ToBeBytes n, []) := by
  have h := readExact_all (u64ToBeBytes n)
  simpa [length_u64ToBeBytes] using h

lemma readExactPanic_u64 (n : Nat) (rest : List Nat) :
    readExactPanic 8 (u64ToBeBytes n ++ rest) = .ok (u64ToBeBytes n, rest) := by
  have h := readExactPanic_append (u64ToBeBytes n) rest
  simpa [length_u64ToBeBytes] using h

lemma readExactPanic_u64_nil (n : Nat) :
    readExactPanic 8 (u64ToBeBytes n) = .ok (u64ToBeBytes n, []) := by
  have h := readExactPanic_all (u64ToBeBytes n)
  simpa [length_u64ToBeBytes] using h

lemma request_from_bytes_to_bytes (r : Request) (h : r.wf = true) :
    Request.from_bytes r.to_bytes = some r := by
  cases r with
  | publish doc =>
    simp only [Request.wf, Bool.and_eq_true, decide_eq_true_eq] at h
    obtain ⟨hv, hlen⟩ := h
    simp [Request.from_bytes, Request.to_bytes, readExact_one, readExact_u64,
      beBytesToNat_u64ToBeBytes _ hlen, readExact_all, hv]
  | search word =>
    simp only [Request.wf, Bool.and_eq_true, decide_eq_true_eq] at h
    obtain ⟨hv, hlen⟩ := h
    simp [Request.from_bytes, Request.to_bytes, readExact_one, readExact_u64,
      beBytesToNat_u64ToBeBytes _ hlen, readExact_all, hv]
  | retrieve id =>
    simp only [Request.wf, decide_eq_true_eq] at h
    simp [Request.from_bytes, Request.to_bytes, readExact_one, readExact_u64_nil,
      beBytesToNat_u64ToBeBytes _ h]

lemma readIndices_encode (ids : List Nat) (rest : List Nat)
    (h : ∀ i ∈ ids, i < 18446744073709551616) :
    readIndices ids.length (ids.flatMap u64ToBeBytes ++ rest) = .ok (ids, rest) := by
  induction ids with
  | nil => simp [readIndices]
  | cons i ids ih =>
    have hi : i < 18446744073709551616 := h i (by simp)
    have htail : ∀ j ∈ ids, j < 18446744073709551616 := fun j hj => h j (by simp [hj])
    simp [readIndices, List.flatMap_cons, List.append_assoc, readExactPanic_u64,
      ih htail, beBytesToNat_u64ToBeBytes _ hi]

lemma response_from_bytes_to_bytes (v : Response) (h : v.wf = true) :
    Response.from_bytes v.to_bytes = .ok v := by
  cases v with
  | publishSuccess id =>
    simp only [Response.wf, decide_eq_true_eq] at h
    simp [Response.from_bytes, Response.to_bytes, readExact_one,
      readExactPanic_u64_nil, beBytesToNat_u64ToBeBytes _ h]
  | searchSuccess ids =>
    simp only [Response.wf, Bool.and_eq_true, decide_eq_true_eq, List.all_eq_true] at h
    obtain ⟨hlen, hall⟩ := h
    have hids := readIndices_encode ids [] hall
    rw [List.append_nil] at hids
    simp [Response.from_bytes, Response.to_bytes, readExact_one, readExactPanic_u64,
      beBytesToNat_u64ToBeBytes _ hlen, hids]
  | retrieveSuccess doc =>
    simp only [Response.wf, Bool.and_eq_true, decide_eq_true_eq] at h
    obtain ⟨hv, hlen⟩ := h
    simp [Response.from_bytes, Response.to_bytes, readExact_one, readExactPanic_u64,
      beBytesToNat_u64ToBeBytes _ hlen, readExactPanic_all, hv]
  | failure => decide

/-- C1: for every constructible `Request` value and every constructible
`Response` value, decoding the byte vector produced by encoding yields
exactly the original value (`from_bytes (to_bytes v) = Some v` for both
families). -/
theorem C1_encode_decode_roundtrip :
    (∀ r : Request, r.wf = true → Request.from_bytes r.to_bytes = some r) ∧
    (∀ v : Response, v.wf = true → Response.from_bytes v.to_bytes = DecodeResult.ok v) :=
  ⟨request_from_bytes_to_bytes, response_from_bytes_to_bytes⟩

/-- Witness for C1: concrete round trips for a Publish request (UTF-8
bytes of "hi") and a SearchSuccess response. -/
theorem C1_encode_decode_roundtrip_witness :
    Request.from_bytes (Request.publish [104, 105]).to_bytes
        = some (Request.publish [104, 105]) ∧
    Response.from_bytes (Response.searchSuccess [3, 5]).to_bytes
        = DecodeResult.ok (Response.searchSuccess [3, 5]) :=
  ⟨C1_encode_decode_roundtrip.1 _ (by decide),
   C1_encode_decode_roundtrip.2 _ (by decide)⟩

/-- C2 (failing-input evaluation): the claim says decoding any strict
prefix of an encoding returns "no value decoded" and never panics, for
both `Request::from_bytes` and `Response::from_bytes`. The code
violates this for `Response`: on the 1-byte strict prefix of
`to_bytes(PublishSuccess(0))` the inner `read_exact(..).unwrap()`
panics instead of returning `None`, contradicting the function's own
doc comment ("If the request is invalid, return `None`"). -/
theorem C2_response_truncation_panics :
    Response.from_bytes ((Response.publishSuccess 0).to_bytes.take 1)
      = DecodeResult.panic := by decide

/-- C7: a leading tag byte that is not a defined tag (1-3 for Request,
1-4 for Response) decodes to "no value decoded", and an input whose
string payload is invalid UTF-8 decodes to "no value decoded", for
the Publish/Search request arms and the RetrieveSuccess response arm. -/
theorem C7_bad_tag_and_bad_utf8_rejected :
    (∀ (t : Nat) (rest : List Nat), t ≠ 1 → t ≠ 2 → t ≠ 3 →
        Request.from_bytes (t :: rest) = none) ∧
    (∀ (t : Nat) (rest : List Nat), t ≠ 1 → t ≠ 2 → t ≠ 3 → t ≠ 4 →
        Response.from_bytes (t :: rest) = DecodeResult.fail) ∧
    (∀ (p rest : List Nat), p.length < 18446744073709551616 →
        isValidUtf8 p = false →
        Request.from_bytes (1 :: (u64ToBeBytes p.length ++ (p ++ rest))) = none ∧
        Request.from_bytes (2 :: (u64ToBeBytes p.length ++ (p ++ rest))) = none ∧
        Response.from_bytes (3 :: (u64ToBeBytes p.length ++ (p ++ rest)))
          = DecodeResult.fail) := by
  refine ⟨?_, ?_, ?_⟩
  · intro t rest h1 h2 h3
    simp [Request.from_bytes, readExact_one, h1, h2, h3]
  · intro t rest h1 h2 h3 h4
    simp [Response.from_bytes, readExact_one, h1, h2, h3, h4]
  · intro p rest hlen hbad
    refine ⟨?_, ?_, ?_⟩
    · simp [Request.from_bytes, readExact_one, readExact_u64,
        beBytesToNat_u64ToBeBytes _ hlen, readExact_append, hbad]
    · simp [Request.from_bytes, readExact_one, readExact_u64,
        beBytesToNat_u64ToBeBytes _ hlen, readExact_append, hbad]
    · simp [Response.from_bytes, readExact_one, readExactPanic_u64,
        beBytesToNat_u64ToBeBytes _ hlen, readExactPanic_append, hbad]

/-- Witness for C7: unknown tag 9 rejected by both decoders, and a
Publish request whose 1-byte payload `0x80` (a lone continuation
byte) is invalid UTF-8 is rejected. -/
theorem C7_bad_tag_and_bad_utf8_rejected_witness :
    Request.from_bytes [9] = none ∧
    Response.from_bytes [9] = DecodeResult.fail ∧
    Request.from_bytes (1 :: (u64ToBeBytes [(128 : Nat)].length ++ ([128] ++ []))) = none :=
  ⟨C7_bad_tag_and_bad_utf8_rejected.1 9 [] (by decide) (by decide) (by decide),
   C7_bad_tag_and_bad_utf8_rejected.2.1 9 [] (by decide) (by decide) (by decide) (by decide),
   (C7_bad_tag_and_bad_utf8_rejected.2.2 [128] [] (by decide) (by decide)).1⟩

/-- C8: every encoding uses fixed 8-byte big-endian integer widths:
strings are an 8-byte big-endian length followed by their UTF-8 bytes,
ids and counts are 8 big-endian bytes; `Retrieve{id}` encodes to
exactly 9 bytes and `Failure` to exactly 1 byte. -/
theorem C8_fixed_width_wire_format :
    (∀ n : Nat, (u64ToBeBytes n).length = 8) ∧
    (∀ doc, (Request.publish doc).to_bytes = 1 :: (u64ToBeBytes doc.length ++ doc)) ∧
    (∀ word, (Request.search word).to_bytes = 2 :: (u64ToBeBytes word.length ++ word)) ∧
    (∀ id : Nat, (Request.retrieve id).to_bytes = 3 :: u64ToBeBytes id ∧
        (Request.retrieve id).to_bytes.length = 9) ∧
    (∀ id : Nat, (Response.publishSuccess id).to_bytes = 1 :: u64ToBeBytes id) ∧
    (∀ ids, (Response.searchSuccess ids).to_bytes
        = 2 :: (u64ToBeBytes ids.length ++ ids.flatMap u64ToBeBytes)) ∧
    (∀ doc, (Response.retrieveSuccess doc).to_bytes
        = 3 :: (u64ToBeBytes doc.length ++ doc)) ∧
    (Response.failure.to_bytes = [4] ∧ Response.failure.to_bytes.length = 1) :=
  ⟨fun _ => rfl, fun _ => rfl, fun _ => rfl, fun _ => ⟨rfl, rfl⟩,
   fun _ => rfl, fun _ => rfl, fun _ => rfl, ⟨rfl, rfl⟩⟩

/-- `ConcurrentMultiMap<K, V>` (`src/multimap.rs`): a vector of
buckets, each an ordered sequence of key-value pairs (each bucket is
guarded by its own `RwLock` in the source; operations here are the
sequential semantics of one locked access). `DefaultHasher` is kept
abstract: every operation takes the hash function as an explicit
parameter, exactly as the source computes `hash(key) % buckets.len()`. -/
structure ConcurrentMultiMap (K V : Type) where
  buckets : List (List (K × V))

/-- `ConcurrentMultiMap::new(bucket_count)`: `bucket_count` empty buckets. -/
def ConcurrentMultiMap.new (K V : Type) (bucket_count : Nat) : ConcurrentMultiMap K V :=
  ⟨List.replicate bucket_count []⟩

/-- `ConcurrentMultiMap::set` (`src/multimap.rs` lines 32-45): find the
bucket by `hash(key) % buckets.len()`, scan it for an identical
(key, value) pair, return early if present, else push the pair at the
back. -/
def ConcurrentMultiMap.set {K V : Type} [DecidableEq K] [DecidableEq V]
    (hash : K → Nat) (m : ConcurrentMultiMap K V) (key : K) (value : V) :
    ConcurrentMultiMap K V :=
  ⟨m.buckets.set (hash key % m.buckets.length)
    (if (key, value) ∈ m.buckets.getD (hash key % m.buckets.length) []
     then m.buckets.getD (hash key % m.buckets.length) []
     else m.buckets.getD (hash key % m.buckets.length) [] ++ [(key, value)])⟩

/-- `ConcurrentMultiMap::get` (`src/multimap.rs` lines 51-69): find the
bucket by `hash(key) % buckets.len()` and collect (clone) the values of
all pairs whose key matches, in bucket order. -/
def ConcurrentMultiMap.get {K V : Type} [DecidableEq K] (hash : K → Nat)
    (m : ConcurrentMultiMap K V) (key : K) : List V :=
  (m.buckets.getD (hash key % m.buckets.length) []).filterMap
    (fun p => if p.1 = key then some p.2 else none)

lemma ConcurrentMultiMap.length_buckets_set {K V : Type} [DecidableEq K] [DecidableEq V]
    (hash : K → Nat) (m : ConcurrentMultiMap K V) (k : K) (v : V) :
    (m.set hash k v).buckets.length = m.buckets.length := by
  simp [ConcurrentMultiMap.set]

lemma ConcurrentMultiMap.mem_get_iff {K V : Type} [DecidableEq K]
    (hash : K → Nat) (m : ConcurrentMultiMap K V) (k : K) (v : V) :
    v ∈ m.get hash k ↔ (k, v) ∈ m.buckets.getD (hash k % m.buckets.length) [] := by
  simp only [ConcurrentMultiMap.get, List.mem_filterMap]
  constructor
  · rintro ⟨⟨a, b⟩, hmem, hab⟩
    by_cases hak : a = k
    · have hb : b = v := by
        simp [hak] at hab
        exact hab
      subst hak
      subst hb
      exact hmem
    · simp [hak] at hab
  · intro hmem
    exact ⟨(k, v), hmem, by simp⟩

lemma getD_replicate_nil {β : Type} (n i : Nat) :
    (List.replicate n ([] : List β)).getD i [] = [] := by
  rw [List.getD_eq_getElem?_getD, List.getElem?_replicate]
  split <;> simp

lemma ConcurrentMultiMap.get_new {K V : Type} [DecidableEq K]
    (hash : K → Nat) (n : Nat) (k : K) :
    (ConcurrentMultiMap.new K V n).get hash k = [] := by
  simp [ConcurrentMultiMap.get, ConcurrentMultiMap.new, getD_replicate_nil]

lemma ConcurrentMultiMap.buckets_set_getD_self {K V : Type} [DecidableEq K] [DecidableEq V]
    (hash : K → Nat) (m : ConcurrentMultiMap K V) (k : K) (v : V)
    (h : 0 < m.buckets.length) :
    (m.set hash k v).buckets.getD (hash k % m.buckets.length) []
      = (if (k, v) ∈ m.buckets.getD (hash k % m.buckets.length) []
         then m.buckets.getD (hash k % m.buckets.length) []
         else m.buckets.getD (hash k % m.buckets.length) [] ++ [(k, v)]) := by
  have hi : hash k % m.buckets.length < m.buckets.length := Nat.mod_lt _ h
  simp only [ConcurrentMultiMap.set]
  rw [List.getD_eq_getElem?_getD, List.getElem?_set_self hi]
  simp

lemma ConcurrentMultiMap.buckets_set_getD_other {K V : Type} [DecidableEq K] [DecidableEq V]
    (hash : K → Nat) (m : ConcurrentMultiMap K V) (k : K) (v : V) (j : Nat)
    (hjne : ¬ j = hash k % m.buckets.length) :
    (m.set hash k v).buckets.getD j [] = m.buckets.getD j [] := by
  simp only [ConcurrentMultiMap.set]
  rw [List.getD_eq_getElem?_getD,
    List.getElem?_set_ne (fun hc => hjne hc.symm), List.getD_eq_getElem?_getD]

lemma ConcurrentMultiMap.get_set_self {K V : Type} [DecidableEq K] [DecidableEq V]
    (hash : K → Nat) (m : ConcurrentMultiMap K V) (k : K) (v : V)
    (h : 0 < m.buckets.length) :
    (m.set hash k v).get hash k =
      if v ∈ m.get hash k then m.get hash k else m.get hash k ++ [v] := by
  have key : (m.set hash k v).get hash k
      = List.filterMap (fun p => if p.1 = k then some p.2 else none)
          (if (k, v) ∈ m.buckets.getD (hash k % m.buckets.length) []
           then m.buckets.getD (hash k % m.buckets.length) []
           else m.buckets.getD (hash k % m.buckets.length) [] ++ [(k, v)]) := by
    simp only [ConcurrentMultiMap.get, ConcurrentMultiMap.length_buckets_set]
    rw [ConcurrentMultiMap.buckets_set_getD_self hash m k v h]
  rw [key]
  by_cases hmem : (k, v) ∈ m.buckets.getD (hash k % m.buckets.length) []
  · rw [if_pos hmem, if_pos ((ConcurrentMultiMap.mem_get_iff hash m k v).mpr hmem)]
    rfl
  · rw [if_neg hmem,
      if_neg (fun hc => hmem ((ConcurrentMultiMap.mem_get_iff hash m k v).mp hc)),
      List.filterMap_append]
    have hone : List.filterMap (fun p => if p.1 = k then some p.2 else none)
        [(k, v)] = [v] := by simp
    rw [hone]
    rfl

lemma ConcurrentMultiMap.get_set_ne {K V : Type} [DecidableEq K] [DecidableEq V]
    (hash : K → Nat) (m : ConcurrentMultiMap K V) (k k' : K) (v : V)
    (hne : k' ≠ k) :
    (m.set hash k v).get hash k' = m.get hash k' := by
  rcases Nat.eq_zero_or_pos m.buckets.length with h0 | hpos
  · have hb : m.buckets = [] := List.length_eq_zero.mp h0
    simp [ConcurrentMultiMap.get, ConcurrentMultiMap.set, hb]
  · by_cases hij : hash k' % m.buckets.length = hash k % m.buckets.length
    · have key : (m.set hash k v).get hash k'
          = List.filterMap (fun p => if p.1 = k' then some p.2 else none)
              (if (k, v) ∈ m.buckets.getD (hash k % m.buckets.length) []
               then m.buckets.getD (hash k % m.buckets.length) []
               else m.buckets.getD (hash k % m.buckets.length) [] ++ [(k, v)]) := by
        simp only [ConcurrentMultiMap.get, ConcurrentMultiMap.length_buckets_set, hij]
        rw [ConcurrentMultiMap.buckets_set_getD_self hash m k v hpos]
      rw [key]
      have hnone : List.filterMap (fun p => if p.1 = k' then some p.2 else none)
          [(k, v)] = [] := by
        have hkk : ¬ k = k' := fun hc => hne hc.symm
        simp [hkk]
      by_cases hmem : (k, v) ∈ m.buckets.getD (hash k % m.buckets.length) []
      · rw [if_pos hmem]
        simp only [ConcurrentMultiMap.get, hij]
      · rw [if_neg hmem, List.filterMap_append, hnone, List.append_nil]
        simp only [ConcurrentMultiMap.get, hij]
    · simp only [ConcurrentMultiMap.get, ConcurrentMultiMap.length_buckets_set]
      rw [ConcurrentMultiMap.buckets_set_getD_other hash m k v
        (hash k' % m.buckets.length) hij]

lemma ConcurrentMultiMap.count_get_set_le {K V : Type} [DecidableEq K] [DecidableEq V]
    (hash : K → Nat) (m : ConcurrentMultiMap K V) (k' : K) (v' : V) (k : K) (v : V)
    (h : 0 < m.buckets.length) (hle : (m.get hash k).count v ≤ 1) :
    ((m.set hash k' v').get hash k).count v ≤ 1 := by
  by_cases hk : k = k'
  · subst hk
    rw [ConcurrentMultiMap.get_set_self hash m k v' h]
    by_cases hv : v' ∈ m.get hash k
    · rw [if_pos hv]
      exact hle
    · rw [if_neg hv, List.count_append]
      by_cases hvv : v = v'
      · subst hvv
        have h0 : (m.get hash k).count v = 0 := List.count_eq_zero_of_not_mem hv
        rw [h0, List.count_singleton_self]
      · have hne : ¬ v' = v := fun hc => hvv hc.symm
        have h1 : List.count v [v'] = 0 := by
          simp [List.count_singleton, hne]
        rw [h1]
        omega
  · rw [ConcurrentMultiMap.get_set_ne hash m k' k v' hk]
    exact hle

lemma ConcurrentMultiMap.count_get_set_self_eq_one {K V : Type} [DecidableEq K] [DecidableEq V]
    (hash : K → Nat) (m : ConcurrentMultiMap K V) (k : K) (v : V)
    (h : 0 < m.buckets.length) (hle : (m.get hash k).count v ≤ 1) :
    ((m.set hash k v).get hash k).count v = 1 := by
  rw [ConcurrentMultiMap.get_set_self hash m k v h]
  by_cases hv : v ∈ m.get hash k
  · rw [if_pos hv]
    have h1 : 1 ≤ (m.get hash k).count v := List.one_le_count_iff.mpr hv
    omega
  · rw [if_neg hv, List.count_append]
    have h0 : (m.get hash k).count v = 0 := List.count_eq_zero_of_not_mem hv
    rw [h0, List.count_singleton_self]

lemma ConcurrentMultiMap.count_get_set_eq_one {K V : Type} [DecidableEq K] [DecidableEq V]
    (hash : K → Nat) (m : ConcurrentMultiMap K V) (k' : K) (v' : V) (k : K) (v : V)
    (h : 0 < m.buckets.length) (h1 : (m.get hash k).count v = 1) :
    ((m.set hash k' v').get hash k).count v = 1 := by
  by_cases hk : k = k'
  · subst hk
    by_cases hvv : v = v'
    · subst hvv
      exact ConcurrentMultiMap.count_get_set_self_eq_one hash m k v h (by omega)
    · rw [ConcurrentMultiMap.get_set_self hash m k v' h]
      by_cases hv : v' ∈ m.get hash k
      · rw [if_pos hv]
        exact h1
      · rw [if_neg hv, List.count_append]
        have hne : ¬ v' = v := fun hc => hvv hc.symm
        have h0 : List.count v [v'] = 0 := by
          simp [List.count_singleton, hne]
        rw [h0, h1]
  · rw [ConcurrentMultiMap.get_set_ne hash m k' k v' hk]
    exact h1

lemma foldl_set_buckets_length {K V : Type} [DecidableEq K] [DecidableEq V]
    (hash : K → Nat) (ops : List (K × V)) :
    ∀ m : ConcurrentMultiMap K V,
      (ops.foldl (fun m p => m.set hash p.1 p.2) m).buckets.length = m.buckets.length := by
  induction ops with
  | nil => intro m; rfl
  | cons p ops ih =>
    intro m
    rw [List.foldl_cons, ih, ConcurrentMultiMap.length_buckets_set]

lemma foldl_set_count_eq_one {K V : Type} [DecidableEq K] [DecidableEq V]
    (hash : K → Nat) (ops : List (K × V)) :
    ∀ m : ConcurrentMultiMap K V, 0 < m.buckets.length →
      (∀ (k₀ : K) (v₀ : V), (m.get hash k₀).count v₀ ≤ 1) →
      ∀ (k : K) (v : V), ((k, v) ∈ ops ∨ (m.get hash k).count v = 1) →
      ((ops.foldl (fun m p => m.set hash p.1 p.2) m).get hash k).count v = 1 := by
  induction ops with
  | nil =>
    intro m hpos hinv k v hdisj
    rcases hdisj with h | h
    · exact absurd h (List.not_mem_nil _)
    · simpa using h
  | cons p ops ih =>
    intro m hpos hinv k v hdisj
    rw [List.foldl_cons]
    refine ih (m.set hash p.1 p.2)
      (by rw [ConcurrentMultiMap.length_buckets_set]; exact hpos)
      (fun k₀ v₀ => ConcurrentMultiMap.count_get_set_le hash m p.1 p.2 k₀ v₀ hpos (hinv k₀ v₀))
      k v ?_
    rcases hdisj with hmem | hone
    · rcases List.mem_cons.mp hmem with heq | htail
      · right
        have hset : m.set hash p.1 p.2 = m.set hash k v := by rw [← heq]
        rw [hset]
        exact ConcurrentMultiMap.count_get_set_self_eq_one hash m k v hpos (hinv k v)
      · left
        exact htail
    · right
      exact ConcurrentMultiMap.count_get_set_eq_one hash m p.1 p.2 k v hpos hone

/-- C3: starting from an empty map with any positive bucket count, for
every sequence of `set` operations in which the pair (k, v) is set
twice (or more), the final `get k` contains v exactly once: the
per-shard at-most-once invariant holds and repeated insertion
deduplicates. -/
theorem C3_multimap_set_twice_get_once {K V : Type} [DecidableEq K] [DecidableEq V]
    (hash : K → Nat) (n : Nat) (hn : 0 < n) (ops : List (K × V)) (k : K) (v : V)
    (htwice : 2 ≤ ops.count (k, v)) :
    ((ops.foldl (fun m p => m.set hash p.1 p.2)
        (ConcurrentMultiMap.new K V n)).get hash k).count v = 1 := by
  have hmem : (k, v) ∈ ops := List.count_pos_iff.mp (by omega)
  have hpos : 0 < (ConcurrentMultiMap.new K V n).buckets.length := by
    simpa [ConcurrentMultiMap.new] using hn
  have hinv : ∀ (k₀ : K) (v₀ : V),
      ((ConcurrentMultiMap.new K V n).get hash k₀).count v₀ ≤ 1 := by
    intro k₀ v₀
    rw [ConcurrentMultiMap.get_new]
    simp
  exact foldl_set_count_eq_one hash ops _ hpos hinv k v (Or.inl hmem)

/-- Witness for C3: setting the pair (0, 7) twice into a fresh 4-bucket
map (identity hash) leaves exactly one copy of 7 under key 0. -/
theorem C3_multimap_set_twice_get_once_witness :
    (([((0 : Nat), (7 : Nat)), (0, 7)].foldl
        (fun m p => m.set (fun x => x) p.1 p.2)
        (ConcurrentMultiMap.new Nat Nat 4)).get (fun x => x) 0).count 7 = 1 :=
  C3_multimap_set_twice_get_once (fun x => x) 4 (by decide) [(0, 7), (0, 7)] 0 7 (by decide)

/-- Documents and words are Rust `String`s processed character-wise by
`split_whitespace` and `to_lowercase`; model them as lists of Unicode
characters. -/
abbrev Str := List Char

/-- `char::is_whitespace`: the Unicode White_Space code points
(U+0009-U+000D, U+0020, U+0085, U+00A0, U+1680, U+2000-U+200A,
U+2028, U+2029, U+202F, U+205F, U+3000), written in decimal. -/
def rustIsWhitespace (c : Char) : Bool :=
  c.toNat = 9 || c.toNat = 10 || c.toNat = 11 || c.toNat = 12 || c.toNat = 13 ||
  c.toNat = 32 || c.toNat = 133 || c.toNat = 160 || c.toNat = 5760 ||
  (8192 ≤ c.toNat && c.toNat ≤ 8202) || c.toNat = 8232 || c.toNat = 8233 ||
  c.toNat = 8239 || c.toNat = 8287 || c.toNat = 12288

/-- Accumulator pass of `str::split_whitespace`: `acc` holds the
current token reversed; whitespace closes the token, the end of the
string flushes a pending token; empty tokens are never produced. -/
def splitWsAux : Str → Str → List Str
  | [], acc => if acc.isEmpty then [] else [acc.reverse]
  | c :: cs, acc =>
    if rustIsWhitespace c then
      if acc.isEmpty then splitWsAux cs [] else acc.reverse :: splitWsAux cs []
    else splitWsAux cs (c :: acc)

/-- `str::split_whitespace`: the maximal non-whitespace runs, in order. -/
def splitWhitespace (s : Str) : List Str := splitWsAux s []

/-- `char::to_lowercase`, modelled on the ASCII range (the only range
any claim exercises): `A`-`Z` map to `a`-`z`, every other character is
kept. The full Unicode lowercasing table of the standard library is
not reproduced; no claim depends on the image of the map beyond ASCII,
only on publish and search applying the same map. -/
def rustCharToLower (c : Char) : Char :=
  if 65 ≤ c.toNat && c.toNat ≤ 90 then Char.ofNat (c.toNat + 32) else c

/-- `str::to_lowercase` under the same ASCII-range model. -/
def rustToLowercase (s : Str) : Str := s.map rustCharToLower

/-- `struct Database` (`src/database.rs`): the word-to-ids reverse
index (a `ConcurrentMultiMap`) and the `Mutex<Vec<String>>` blob store
(sequential semantics of one locked access). -/
structure Database where
  reverse_index : ConcurrentMultiMap Str Nat
  blob_store : List Str

/-- `const BUCKETS: usize = 128`. -/
def BUCKETS : Nat := 128

/-- `Database::new`: empty store, `BUCKETS`-bucket index. -/
def Database.new : Database :=
  ⟨ConcurrentMultiMap.new Str Nat BUCKETS, []⟩

/-- `Database::publish` (`src/database.rs` lines 36-47): take the next
id as the current store length, insert (lowercased word, id) into the
reverse index for every non-empty token of the document, append the
raw document, return the id. -/
def Database.publish (hash : Str → Nat) (db : Database) (doc : Str) :
    Database × Nat :=
  ⟨⟨(splitWhitespace doc).foldl
      (fun m word =>
        if (rustToLowercase word).isEmpty then m
        else m.set hash (rustToLowercase word) db.blob_store.length)
      db.reverse_index,
    db.blob_store ++ [doc]⟩,
   db.blob_store.length⟩

/-- `Database::search` (`src/database.rs` lines 49-52): lowercase the
word and look it up in the reverse index. -/
def Database.search (hash : Str → Nat) (db : Database) (word : Str) : List Nat :=
  db.reverse_index.get hash (rustToLowercase word)

/-- `Database::retrieve` (`src/database.rs` lines 55-58):
`blob_store.get(id).cloned()`. -/
def Database.retrieve (db : Database) (id : Nat) : Option Str :=
  db.blob_store[id]?

/-- N sequential single-threaded `publish` calls starting from the
empty database, collecting the returned ids in call order. -/
def publishSeq (hash : Str → Nat) (docs : List Str) : Database × List Nat :=
  docs.foldl
    (fun p d => ((p.1.publish hash d).1, p.2 ++ [(p.1.publish hash d).2]))
    (Database.new, [])

lemma publish_blob_store_length (hash : Str → Nat) (db : Database) (doc : Str) :
    (db.publish hash doc).1.blob_store.length = db.blob_store.length + 1 := by
  simp [Database.publish]

lemma publishSeq_foldl_spec (hash : Str → Nat) (docs : List Str) :
    ∀ (db : Database) (acc : List Nat),
      (docs.foldl
          (fun p d => ((p.1.publish hash d).1, p.2 ++ [(p.1.publish hash d).2]))
          (db, acc)).2
        = acc ++ List.range' db.blob_store.length docs.length ∧
      (docs.foldl
          (fun p d => ((p.1.publish hash d).1, p.2 ++ [(p.1.publish hash d).2]))
          (db, acc)).1.blob_store.length
        = db.blob_store.length + docs.length := by
  induction docs with
  | nil =>
    intro db acc
    simp [List.range']
  | cons d docs ih =>
    intro db acc
    rw [List.foldl_cons]
    obtain ⟨h1, h2⟩ := ih (db.publish hash d).1 (acc ++ [(db.publish hash d).2])
    have hid : (db.publish hash d).2 = db.blob_store.length := rfl
    constructor
    · rw [h1, publish_blob_store_length, hid, List.append_assoc, List.length_cons,
        List.range'_succ]
      rfl
    · rw [h2, publish_blob_store_length, List.length_cons]
      omega

/-- C4: N sequential single-threaded publish calls starting from the
empty store return the ids 0..N-1 in order; every individual publish
call returns an id equal to the store length at the start of the call
and appends the raw text to the store. -/
theorem C4_publish_id_assignment (hash : Str → Nat) :
    (∀ docs : List Str, (publishSeq hash docs).2 = List.range docs.length) ∧
    (∀ (db : Database) (doc : Str),
      (db.publish hash doc).2 = db.blob_store.length ∧
      (db.publish hash doc).1.blob_store = db.blob_store ++ [doc]) := by
  constructor
  · intro docs
    have h := (publishSeq_foldl_spec hash docs Database.new []).1
    have hnew : (Database.new).blob_store.length = 0 := rfl
    rw [hnew] at h
    rw [publishSeq]
    rw [h, List.range_eq_range', List.nil_append]
  · intro db doc
    exact ⟨rfl, rfl⟩

/-- C5: `retrieve(id)` returns a copy of the stored text whenever
`id < store length` and "not found" (`none`) whenever
`id ≥ store length`; retrieving the id just returned by a publish
yields the exact raw text passed to publish, unmodified by
normalization. -/
theorem C5_retrieve_bounds (db : Database) (id : Nat) :
    (id < db.blob_store.length →
        db.retrieve id = some (db.blob_store.getD id [])) ∧
    (db.blob_store.length ≤ id → db.retrieve id = none) ∧
    (∀ (hash : Str → Nat) (doc : Str),
        (db.publish hash doc).1.retrieve (db.publish hash doc).2 = some doc) := by
  refine ⟨?_, ?_, ?_⟩
  · intro h
    simp [Database.retrieve, List.getElem?_eq_getElem h, List.getD_eq_getElem?_getD]
  · intro h
    simp [Database.retrieve, List.getElem?_eq_none h]
  · intro hash doc
    have hid : (db.publish hash doc).2 = db.blob_store.length := rfl
    have hblob : (db.publish hash doc).1.blob_store = db.blob_store ++ [doc] := rfl
    rw [Database.retrieve, hid, hblob, List.getElem?_concat_length]

/-- Witness for C5: in the empty database, publishing "h" and
retrieving the returned id gives back "h", and retrieving id 5 of the
empty database is "not found". -/
theorem C5_retrieve_bounds_witness :
    (Database.new.publish (fun _ => 0) ['h']).1.retrieve
        ((Database.new.publish (fun _ => 0) ['h']).2) = some ['h'] ∧
    Database.new.retrieve 5 = none :=
  ⟨(C5_retrieve_bounds Database.new 0).2.2 (fun _ => 0) ['h'],
   (C5_retrieve_bounds Database.new 5).2.1 (by decide)⟩

lemma ConcurrentMultiMap.mem_get_set {K V : Type} [DecidableEq K] [DecidableEq V]
    (hash : K → Nat) (m : ConcurrentMultiMap K V) (k' : K) (v' : V) (k : K) (v : V)
    (h : v ∈ (m.set hash k' v').get hash k) :
    v ∈ m.get hash k ∨ (k = k' ∧ v = v') := by
  by_cases hk : k = k'
  · subst hk
    rcases Nat.eq_zero_or_pos m.buckets.length with h0 | hpos
    · have hb : m.buckets = [] := List.length_eq_zero.mp h0
      simp [ConcurrentMultiMap.set, ConcurrentMultiMap.get, hb] at h
    · rw [ConcurrentMultiMap.get_set_self hash m k v' hpos] at h
      by_cases hv' : v' ∈ m.get hash k
      · rw [if_pos hv'] at h
        exact Or.inl h
      · rw [if_neg hv'] at h
        rcases List.mem_append.mp h with h1 | h1
        · exact Or.inl h1
        · right
          simp at h1
          exact ⟨rfl, h1⟩
  · rw [ConcurrentMultiMap.get_set_ne hash m k' k v' hk] at h
    exact Or.inl h

/-- N sequential publish calls from the empty database, keeping only
the final database state. -/
def publishFold (hash : Str → Nat) (docs : List Str) : Database :=
  docs.foldl (fun db d => (db.publish hash d).1) Database.new

lemma foldl_token_set_bound (hash : Str → Nat) (next_id : Nat) (toks : List Str) :
    ∀ m : ConcurrentMultiMap Str Nat,
      (∀ (w : Str) (i : Nat), i ∈ m.get hash w → i < next_id + 1) →
      ∀ (w : Str) (i : Nat),
        i ∈ (toks.foldl
            (fun m word =>
              if (rustToLowercase word).isEmpty then m
              else m.set hash (rustToLowercase word) next_id) m).get hash w →
        i < next_id + 1 := by
  induction toks with
  | nil =>
    intro m hm
    exact hm
  | cons t toks ih =>
    intro m hm w i hmem
    rw [List.foldl_cons] at hmem
    refine ih _ ?_ w i hmem
    intro w' i' hmem'
    by_cases hemp : (rustToLowercase t).isEmpty
    · rw [if_pos hemp] at hmem'
      exact hm w' i' hmem'
    · rw [if_neg hemp] at hmem'
      rcases ConcurrentMultiMap.mem_get_set hash m _ next_id w' i' hmem' with h1 | ⟨_, h2⟩
      · exact hm w' i' h1
      · omega

lemma publish_preserves_bound (hash : Str → Nat) (db : Database) (doc : Str)
    (hinv : ∀ (w : Str) (i : Nat),
      i ∈ db.reverse_index.get hash w → i < db.blob_store.length) :
    ∀ (w : Str) (i : Nat),
      i ∈ (db.publish hash doc).1.reverse_index.get hash w →
      i < (db.publish hash doc).1.blob_store.length := by
  intro w i h
  rw [publish_blob_store_length]
  exact foldl_token_set_bound hash db.blob_store.length (splitWhitespace doc)
    db.reverse_index (fun w' i' hm => Nat.lt_succ_of_lt (hinv w' i' hm)) w i h

lemma publishFold_bound_aux (hash : Str → Nat) (docs : List Str) :
    ∀ db : Database,
      (∀ (w : Str) (i : Nat),
        i ∈ db.reverse_index.get hash w → i < db.blob_store.length) →
      ∀ (w : Str) (i : Nat),
        i ∈ (docs.foldl (fun db d => (db.publish hash d).1) db).reverse_index.get hash w →
        i < (docs.foldl (fun db d => (db.publish hash d).1) db).blob_store.length := by
  induction docs with
  | nil =>
    intro db hdb
    exact hdb
  | cons d docs ih =>
    intro db hdb
    rw [List.foldl_cons]
    exact ih _ (publish_preserves_bound hash db d hdb)

lemma publishFold_bound (hash : Str → Nat) (docs : List Str) :
    ∀ (w : Str) (i : Nat),
      i ∈ (publishFold hash docs).reverse_index.get hash w →
      i < (publishFold hash docs).blob_store.length := by
  refine publishFold_bound_aux hash docs Database.new ?_
  intro w i h
  rw [show (Database.new).reverse_index = ConcurrentMultiMap.new Str Nat BUCKETS from rfl,
    ConcurrentMultiMap.get_new] at h
  exact absurd h (List.not_mem_nil _)

/-- C10: in sequential execution every id returned by `search` is a
valid document id: after any sequence of publish calls from the empty
database, every element of `search w` is strictly below the store
length, so `retrieve` succeeds on it. -/
theorem C10_search_ids_retrievable (hash : Str → Nat) (docs : List Str)
    (w : Str) (i : Nat)
    (h : i ∈ (publishFold hash docs).search hash w) :
    i < (publishFold hash docs).blob_store.length ∧
    ((publishFold hash docs).retrieve i).isSome = true := by
  have hb : i < (publishFold hash docs).blob_store.length :=
    publishFold_bound hash docs (rustToLowercase w) i h
  refine ⟨hb, ?_⟩
  rw [Database.retrieve, List.getElem?_eq_getElem hb]
  rfl

set_option maxRecDepth 100000 in
/-- Witness for C10: after publishing the single document "a", the id
0 returned by `search "a"` is retrievable. -/
theorem C10_search_ids_retrievable_witness :
    0 < (publishFold (fun _ => 0) [['a']]).blob_store.length ∧
    ((publishFold (fun _ => 0) [['a']]).retrieve 0).isSome = true :=
  C10_search_ids_retrievable (fun _ => 0) [['a']] ['a'] 0 (by decide)

/-- C6: search normalizes its argument identically to publish-time
normalization: after publishing "The Quick Fox" into the empty
database (id X), each of search "the", "quick", "fox" and "THE"
includes X, and search "zzz" (a word occurring in no document)
returns the empty sequence — for every hash function. -/
theorem C6_search_normalization (hash : Str → Nat) :
    ((Database.new.publish hash ("The Quick Fox").toList).2
      ∈ (Database.new.publish hash ("The Quick Fox").toList).1.search hash ("the").toList) ∧
    ((Database.new.publish hash ("The Quick Fox").toList).2
      ∈ (Database.new.publish hash ("The Quick Fox").toList).1.search hash ("quick").toList) ∧
    ((Database.new.publish hash ("The Quick Fox").toList).2
      ∈ (Database.new.publish hash ("The Quick Fox").toList).1.search hash ("fox").toList) ∧
    ((Database.new.publish hash ("The Quick Fox").toList).2
      ∈ (Database.new.publish hash ("The Quick Fox").toList).1.search hash ("THE").toList) ∧
    ((Database.new.publish hash ("The Quick Fox").toList).1.search hash ("zzz").toList
      = []) := by
  have htok : splitWhitespace ("The Quick Fox").toList
      = [("The").toList, ("Quick").toList, ("Fox").toList] := by decide
  have hThe : rustToLowercase ("The").toList = ("the").toList := by decide
  have hQuick : rustToLowercase ("Quick").toList = ("quick").toList := by decide
  have hFox : rustToLowercase ("Fox").toList = ("fox").toList := by decide
  have hthe : rustToLowercase ("the").toList = ("the").toList := by decide
  have hquick : rustToLowercase ("quick").toList = ("quick").toList := by decide
  have hfox : rustToLowercase ("fox").toList = ("fox").toList := by decide
  have hTHE : rustToLowercase ("THE").toList = ("the").toList := by decide
  have hzzz : rustToLowercase ("zzz").toList = ("zzz").toList := by decide
  have he1 : (("the").toList).isEmpty = false := by decide
  have he2 : (("quick").toList).isEmpty = false := by decide
  have he3 : (("fox").toList).isEmpty = false := by decide
  have hpub : (Database.new.publish hash ("The Quick Fox").toList).1.reverse_index
      = (((ConcurrentMultiMap.new Str Nat BUCKETS).set hash (("the").toList) 0).set hash
          (("quick").toList) 0).set hash (("fox").toList) 0 := by
    have hThe' : rustToLowercase ['T', 'h', 'e'] = ['t', 'h', 'e'] := by decide
    have hQuick' : rustToLowercase ['Q', 'u', 'i', 'c', 'k']
        = ['q', 'u', 'i', 'c', 'k'] := by decide
    have hFox' : rustToLowercase ['F', 'o', 'x'] = ['f', 'o', 'x'] := by decide
    simp only [Database.publish, Database.new]
    rw [htok]
    rw [List.foldl_cons, List.foldl_cons, List.foldl_cons, List.foldl_nil]
    simp [hThe', hQuick', hFox']
  have hX : (Database.new.publish hash ("The Quick Fox").toList).2 = 0 := rfl
  have hposnew : 0 < (ConcurrentMultiMap.new Str Nat BUCKETS).buckets.length := by
    simp [ConcurrentMultiMap.new, BUCKETS]
  have hpos1 : 0 < ((ConcurrentMultiMap.new Str Nat BUCKETS).set hash
      (("the").toList) 0).buckets.length := by
    rw [ConcurrentMultiMap.length_buckets_set]
    exact hposnew
  have hpos2 : 0 < (((ConcurrentMultiMap.new Str Nat BUCKETS).set hash
      (("the").toList) 0).set hash (("quick").toList) 0).buckets.length := by
    rw [ConcurrentMultiMap.length_buckets_set, ConcurrentMultiMap.length_buckets_set]
    exact hposnew
  have hne_the_fox : ("the").toList ≠ ("fox").toList := by decide
  have hne_the_quick : ("the").toList ≠ ("quick").toList := by decide
  have hne_quick_fox : ("quick").toList ≠ ("fox").toList := by decide
  have hne_quick_the : ("quick").toList ≠ ("the").toList := by decide
  have hne_fox_quick : ("fox").toList ≠ ("quick").toList := by decide
  have hne_fox_the : ("fox").toList ≠ ("the").toList := by decide
  have hne_zzz_fox : ("zzz").toList ≠ ("fox").toList := by decide
  have hne_zzz_quick : ("zzz").toList ≠ ("quick").toList := by decide
  have hne_zzz_the : ("zzz").toList ≠ ("the").toList := by decide
  have hget_the : ((((ConcurrentMultiMap.new Str Nat BUCKETS).set hash
      (("the").toList) 0).set hash (("quick").toList) 0).set hash
      (("fox").toList) 0).get hash (("the").toList) = [0] := by
    rw [ConcurrentMultiMap.get_set_ne _ _ _ _ _ hne_the_fox,
      ConcurrentMultiMap.get_set_ne _ _ _ _ _ hne_the_quick,
      ConcurrentMultiMap.get_set_self _ _ _ _ hposnew,
      ConcurrentMultiMap.get_new]
    simp
  have hget_quick : ((((ConcurrentMultiMap.new Str Nat BUCKETS).set hash
      (("the").toList) 0).set hash (("quick").toList) 0).set hash
      (("fox").toList) 0).get hash (("quick").toList) = [0] := by
    rw [ConcurrentMultiMap.get_set_ne _ _ _ _ _ hne_quick_fox,
      ConcurrentMultiMap.get_set_self _ _ _ _ hpos1,
      ConcurrentMultiMap.get_set_ne _ _ _ _ _ hne_quick_the,
      ConcurrentMultiMap.get_new]
    simp
  have hget_fox : ((((ConcurrentMultiMap.new Str Nat BUCKETS).set hash
      (("the").toList) 0).set hash (("quick").toList) 0).set hash
      (("fox").toList) 0).get hash (("fox").toList) = [0] := by
    rw [ConcurrentMultiMap.get_set_self _ _ _ _ hpos2,
      ConcurrentMultiMap.get_set_ne _ _ _ _ _ hne_fox_quick,
      ConcurrentMultiMap.get_set_ne _ _ _ _ _ hne_fox_the,
      ConcurrentMultiMap.get_new]
    simp
  have hget_zzz : ((((ConcurrentMultiMap.new Str Nat BUCKETS).set hash
      (("the").toList) 0).set hash (("quick").toList) 0).set hash
      (("fox").toList) 0).get hash (("zzz").toList) = [] := by
    rw [ConcurrentMultiMap.get_set_ne _ _ _ _ _ hne_zzz_fox,
      ConcurrentMultiMap.get_set_ne _ _ _ _ _ hne_zzz_quick,
      ConcurrentMultiMap.get_set_ne _ _ _ _ _ hne_zzz_the,
      ConcurrentMultiMap.get_new]
  refine ⟨?_, ?_, ?_, ?_, ?_⟩
  · rw [hX]
    simp only [Database.search, hthe, hpub]
    rw [hget_the]
    simp
  · rw [hX]
    simp only [Database.search, hquick, hpub]
    rw [hget_quick]
    simp
  · rw [hX]
    simp only [Database.search, hfox, hpub]
    rw [hget_fox]
    simp
  · rw [hX]
    simp only [Database.search, hTHE, hpub]
    rw [hget_the]
    simp
  · simp only [Database.search, hzzz, hpub]
    rw [hget_zzz]

/-- The two kinds of locks in the document store: the single
`Mutex<Vec<String>>` blob-store lock and the per-shard `RwLock`s of
the reverse index. -/
inductive LockId where
  | blob
  | shard (i : Nat)
deriving DecidableEq

/-- A lock acquisition or release, in program order. -/
inductive LockEvent where
  | acquire (l : LockId)
  | release (l : LockId)
deriving DecidableEq

def LockId.isShard : LockId → Bool
  | .shard _ => true
  | .blob => false

def LockId.isBlob : LockId → Bool
  | .blob => true
  | .shard _ => false

/-- Does the set of currently held locks contain the blob-store lock
and some shard lock at the same time? -/
def heldBlobAndShard (held : List LockId) : Bool :=
  held.any LockId.isBlob && held.any LockId.isShard

/-- Walk an event trace keeping the multiset of held locks; true iff
at some state the blob-store lock and a shard lock are held together. -/
def anyBothHeld : List LockId → List LockEvent → Bool
  | _, [] => false
  | held, e :: rest =>
    match e with
    | .acquire l => heldBlobAndShard (l :: held) || anyBothHeld (l :: held) rest
    | .release l => heldBlobAndShard (held.erase l) || anyBothHeld (held.erase l) rest

def bothHeldSomewhere (evs : List LockEvent) : Bool := anyBothHeld [] evs

/-- Lock trace of `Database::publish` (`src/database.rs` lines 36-47):
`self.blob_store.lock()` is taken on the first line and its RAII guard
lives to the end of the function, while inside the loop
`reverse_index.set` acquires and releases one shard write lock per
non-empty lowercased token (`src/multimap.rs` lines 36-44). -/
def publishLockTrace (hash : Str → Nat) (nBuckets : Nat) (doc : Str) : List LockEvent :=
  LockEvent.acquire LockId.blob ::
    ((splitWhitespace doc).flatMap (fun word =>
        if (rustToLowercase word).isEmpty then []
        else [LockEvent.acquire (LockId.shard (hash (rustToLowercase word) % nBuckets)),
              LockEvent.release (LockId.shard (hash (rustToLowercase word) % nBuckets))])
      ++ [LockEvent.release LockId.blob])

/-- Lock trace of `Database::search`: one shard read lock, acquired
and released inside `reverse_index.get`. -/
def searchLockTrace (hash : Str → Nat) (nBuckets : Nat) (word : Str) : List LockEvent :=
  [LockEvent.acquire (LockId.shard (hash (rustToLowercase word) % nBuckets)),
   LockEvent.release (LockId.shard (hash (rustToLowercase word) % nBuckets))]

/-- Lock trace of `Database::retrieve`: only the blob-store lock. -/
def retrieveLockTrace : List LockEvent :=
  [LockEvent.acquire LockId.blob, LockEvent.release LockId.blob]

/-- C9 counterexample: the claim says no document-store operation ever
holds the index (shard) lock and the blob-store lock simultaneously,
but `publish` keeps the blob-store mutex guard alive for its whole
body and calls `reverse_index.set` (which takes a shard write lock)
inside it: publishing the one-word document "a" reaches a state where
both locks are held. -/
theorem C9_publish_holds_both_locks :
    bothHeldSomewhere (publishLockTrace (fun _ => 0) BUCKETS ['a']) = true := by decide

lemma anyBothHeld_blob_flatMap (hash : Str → Nat) (n : Nat) (ws : List Str)
    (h : ∃ w ∈ ws, (rustToLowercase w).isEmpty = false) :
    anyBothHeld [LockId.blob]
      (ws.flatMap (fun word =>
          if (rustToLowercase word).isEmpty then []
          else [LockEvent.acquire (LockId.shard (hash (rustToLowercase word) % n)),
                LockEvent.release (LockId.shard (hash (rustToLowercase word) % n))])
        ++ [LockEvent.release LockId.blob]) = true := by
  induction ws with
  | nil =>
    rcases h with ⟨w, hw, _⟩
    exact absurd hw (List.not_mem_nil _)
  | cons t ws ih =>
    rcases h with ⟨w, hw, hne⟩
    by_cases hemp : (rustToLowercase t).isEmpty
    · rw [List.flatMap_cons, if_pos hemp, List.nil_append]
      apply ih
      rcases List.mem_cons.mp hw with heq | htail
      · subst heq
        rw [hemp] at hne
        cases hne
      · exact ⟨w, htail, hne⟩
    · rw [List.flatMap_cons, if_neg hemp]
      simp [anyBothHeld, heldBlobAndShard, LockId.isBlob, LockId.isShard]

/-- C9 amended: `search` and `retrieve` each hold at most one lock at
a time, but `publish` holds the blob-store lock for its entire
duration and acquires shard locks while still holding it, so both
locks are held simultaneously whenever the published document has at
least one non-empty token. -/
theorem C9_lock_discipline_amended (hash : Str → Nat) (n : Nat) :
    (∀ word : Str, bothHeldSomewhere (searchLockTrace hash n word) = false) ∧
    bothHeldSomewhere retrieveLockTrace = false ∧
    (∀ doc : Str,
      (∃ w ∈ splitWhitespace doc, (rustToLowercase w).isEmpty = false) →
      bothHeldSomewhere (publishLockTrace hash n doc) = true) := by
  refine ⟨?_, by decide, ?_⟩
  · intro word
    simp [bothHeldSomewhere, searchLockTrace, anyBothHeld, heldBlobAndShard,
      LockId.isBlob, LockId.isShard, List.erase_cons_head]
  · intro doc hex
    have h := anyBothHeld_blob_flatMap hash n (splitWhitespace doc) hex
    simp [bothHeldSomewhere, publishLockTrace, anyBothHeld, heldBlobAndShard,
      LockId.isBlob, LockId.isShard] at h ⊢
    exact h

/-- Witness for the amended C9 at concrete inputs: searching "a" and
retrieving never hold two locks; publishing "a" does hold both. -/
theorem C9_lock_discipline_amended_witness :
    bothHeldSomewhere (searchLockTrace (fun _ => 0) BUCKETS ['a']) = false ∧
    bothHeldSomewhere retrieveLockTrace = false ∧
    bothHeldSomewhere (publishLockTrace (fun _ => 1) BUCKETS ['b']) = true :=
  ⟨(C9_lock_discipline_amended (fun _ => 0) BUCKETS).1 ['a'],
   (C9_lock_discipline_amended (fun _ => 0) BUCKETS).2.1,
   (C9_lock_discipline_amended (fun _ => 1) BUCKETS).2.2 ['b'] (by decide)⟩
